import Mathlib

/-!
Shallow embedding of the document-analysis pipeline in `src/main.js`
(job-specific CV and cover-letter analysis).  Strings are modelled as
`List Char`; JS numbers are modelled as finite rationals (`ℚ`); the
regex-based JSON recovery is modelled pass by pass as left-to-right
scanners that mirror the global-replace semantics of each `.replace`
call (a match is rewritten and scanning resumes after the match; on a
non-match the scanner advances one character).  The scanners take a
fuel argument so that they reduce by `decide`/`rfl`; the fuel is always
`length + 1`, which is never exhausted because every step consumes at
least one character.
-/

namespace JobAnalysis

/-- Backtick character (avoids a literal backtick in the source). -/
def bq : Char := Char.ofNat 96

/-- Single-quote character. -/
def sq : Char := Char.ofNat 39

/-- Left brace character. -/
def lbrace : Char := Char.ofNat 123

/-- Right brace character. -/
def rbrace : Char := Char.ofNat 125

/-- ASCII whitespace as matched by the JS `\s` class, `trim`, and the
whitespace skipping in the recovery regexes (the exotic Unicode spaces
are irrelevant to this code path). -/
def isJsWs (c : Char) : Bool :=
  c = ' ' || c = '\t' || c = '\n' || c = '\r' || c = Char.ofNat 11 || c = Char.ofNat 12

/-- JS `\w` word character (ASCII). -/
def isWordChar (c : Char) : Bool :=
  ('a' ≤ c && c ≤ 'z') || ('A' ≤ c && c ≤ 'Z') || ('0' ≤ c && c ≤ '9') || c = '_'

/-- Pass 1 of `extractAndCleanJSON`: `text.replace(/```json\s*|/g, '')`
restricted to its actual pattern, i.e. remove every occurrence of three
backticks followed by `json` and any following whitespace. -/
def r1F : Nat → List Char → List Char
  | 0, l => l
  | fuel+1, l =>
    match l with
    | [] => []
    | c :: cs =>
      if c = bq then
        match cs with
        | c2 :: c3 :: 'j' :: 's' :: 'o' :: 'n' :: rest =>
          if c2 = bq ∧ c3 = bq then r1F fuel (rest.dropWhile isJsWs)
          else c :: r1F fuel cs
        | _ => c :: r1F fuel cs
      else c :: r1F fuel cs

/-- Pass 2: `.replace(/```\s*/g, '')`. -/
def r2F : Nat → List Char → List Char
  | 0, l => l
  | _+1, [] => []
  | fuel+1, c :: cs =>
    if c = bq then
      match cs with
      | c2 :: c3 :: rest =>
        if c2 = bq ∧ c3 = bq then r2F fuel (rest.dropWhile isJsWs)
        else c :: r2F fuel cs
      | _ => c :: r2F fuel cs
    else c :: r2F fuel cs

/-- JS `String.prototype.trim` on a character list. -/
def trimL (l : List Char) : List Char :=
  ((l.dropWhile isJsWs).reverse.dropWhile isJsWs).reverse

/-- Pass 3: `.replace(/,(\s*[}\]])/g, '$1')` — drop a comma standing
immediately (up to whitespace) before a closing brace or bracket. -/
def r6F : Nat → List Char → List Char
  | 0, l => l
  | _+1, [] => []
  | fuel+1, c :: cs =>
    if c = ',' then
      match cs.dropWhile isJsWs with
      | b :: rest =>
        if b = rbrace ∨ b = ']' then cs.takeWhile isJsWs ++ b :: r6F fuel rest
        else c :: r6F fuel cs
      | [] => c :: r6F fuel cs
    else c :: r6F fuel cs

/-- Pass 4: `.replace(/([{,]\s*)(\w+):/g, '$1"$2":')` — double-quote a
bare object key. -/
def r7F : Nat → List Char → List Char
  | 0, l => l
  | _+1, [] => []
  | fuel+1, c :: cs =>
    if c = lbrace ∨ c = ',' then
      let ws := cs.takeWhile isJsWs
      let afterWs := cs.dropWhile isJsWs
      let wrd := afterWs.takeWhile isWordChar
      let afterWrd := afterWs.dropWhile isWordChar
      match wrd, afterWrd with
      | _ :: _, ':' :: rest => c :: (ws ++ '"' :: (wrd ++ '"' :: ':' :: r7F fuel rest))
      | _, _ => c :: r7F fuel cs
    else c :: r7F fuel cs

/-- Pass 5: `.replace(/:\s*'([^']*)'/g, ': "$1"')` — convert a
single-quoted value to a double-quoted one (note the replacement always
emits exactly one space after the colon). -/
def r8F : Nat → List Char → List Char
  | 0, l => l
  | _+1, [] => []
  | fuel+1, c :: cs =>
    if c = ':' then
      match cs.dropWhile isJsWs with
      | q :: rest2 =>
        if q = sq then
          let content := rest2.takeWhile (fun d => d ≠ sq)
          match rest2.dropWhile (fun d => d ≠ sq) with
          | _ :: rest4 => ':' :: ' ' :: '"' :: (content ++ '"' :: r8F fuel rest4)
          | [] => c :: r8F fuel cs
        else c :: r8F fuel cs
      | [] => c :: r8F fuel cs
    else c :: r8F fuel cs

/-- Pass 7: `.replace(/\s+/g, ' ')` — collapse every whitespace run to a
single space. -/
def collapseWsF : Nat → List Char → List Char
  | 0, l => l
  | _+1, [] => []
  | fuel+1, c :: cs =>
    if isJsWs c then ' ' :: collapseWsF fuel (cs.dropWhile isJsWs)
    else c :: collapseWsF fuel cs

/-- Index of the first occurrence of a character (length if absent). -/
def idxOfC (c : Char) : List Char → Nat
  | [] => 0
  | x :: xs => if x = c then 0 else idxOfC c xs + 1

/-- Character membership. -/
def containsC (c : Char) : List Char → Bool
  | [] => false
  | d :: ds => d = c || containsC c ds

/-- JS `indexOf` (−1 when absent). -/
def jsIndexOf (c : Char) (l : List Char) : Int :=
  if containsC c l then (idxOfC c l : Int) else -1

/-- JS `lastIndexOf` (−1 when absent). -/
def jsLastIndexOf (c : Char) (l : List Char) : Int :=
  if containsC c l then (l.length : Int) - 1 - (idxOfC c l.reverse : Int) else -1

/-- `utils.extractAndCleanJSON` on a character list.  Returns `none`
when the function throws (`No valid JSON object found in response`). -/
def extractAndCleanJSONL (l0 : List Char) : Option (List Char) :=
  let l1 := r1F (l0.length + 1) l0
  let l2 := r2F (l1.length + 1) l1
  let cleaned := trimL l2
  let s := jsIndexOf lbrace cleaned
  let e := jsLastIndexOf rbrace cleaned
  if s = -1 ∨ e = -1 ∨ s ≥ e then none
  else
    let core := (cleaned.drop s.toNat).take (e.toNat + 1 - s.toNat)
    let c1 := r6F (core.length + 1) core
    let c2 := r7F (c1.length + 1) c1
    let c3 := r8F (c2.length + 1) c2
    let c4 := c3.map (fun c => if c = '\n' then ' ' else c)
    let c5 := collapseWsF (c4.length + 1) c4
    some (trimL c5)

/-- `utils.extractAndCleanJSON` on strings. -/
def extractAndCleanJSON (s : String) : Option String :=
  (extractAndCleanJSONL s.toList).map (fun l => String.mk l)

/-!  ### Canonical strings: inputs on which every recovery pass is the
identity.  One Boolean predicate per rewrite pass states that no
position of the text matches that pass's pattern. -/

/-- The list starts with character `c`. -/
def headIs (c : Char) : List Char → Bool
  | d :: _ => d = c
  | [] => false

/-- The list ends with character `c`. -/
def lastIs (c : Char) (l : List Char) : Bool := headIs c l.reverse

/-- Three consecutive backticks start here. -/
def fenceAt : List Char → Bool
  | a :: b :: d :: _ => a = bq && b = bq && d = bq
  | _ => false

/-- No three consecutive backticks anywhere (rules out both fence
patterns of passes 1 and 2). -/
def noFence : List Char → Bool
  | [] => true
  | c :: cs => !fenceAt (c :: cs) && noFence cs

/-- A trailing-comma pattern (pass 3) starts here. -/
def r6matchAt : List Char → Bool
  | ',' :: cs =>
    (match cs.dropWhile isJsWs with
     | b :: _ => b = rbrace || b = ']'
     | [] => false)
  | _ => false

def noR6 : List Char → Bool
  | [] => true
  | c :: cs => !r6matchAt (c :: cs) && noR6 cs

/-- A bare-key pattern (pass 4) starts here. -/
def r7matchAt : List Char → Bool
  | c :: cs =>
    (c = lbrace || c = ',') &&
      (match (cs.dropWhile isJsWs).takeWhile isWordChar,
          (cs.dropWhile isJsWs).dropWhile isWordChar with
       | _ :: _, ':' :: _ => true
       | _, _ => false)
  | [] => false

def noR7 : List Char → Bool
  | [] => true
  | c :: cs => !r7matchAt (c :: cs) && noR7 cs

/-- A single-quoted-value pattern (pass 5) starts here. -/
def r8matchAt : List Char → Bool
  | ':' :: cs =>
    (match cs.dropWhile isJsWs with
     | q :: rest2 =>
       q = sq &&
         (match rest2.dropWhile (fun d => d ≠ sq) with
          | _ :: _ => true
          | [] => false)
     | [] => false)
  | _ => false

def noR8 : List Char → Bool
  | [] => true
  | c :: cs => !r8matchAt (c :: cs) && noR8 cs

/-- Every whitespace character is a single plain space (so passes 6 and
7 are the identity). -/
def wsCanonical : List Char → Bool
  | [] => true
  | c :: cs =>
    (!isJsWs c || (c = ' ' &&
      (match cs with
       | d :: _ => !isJsWs d
       | [] => true))) && wsCanonical cs

/-- A canonical recovery fixed point: brace-delimited, fence-free, with
no trailing-comma / bare-key / single-quoted-value pattern anywhere
(string-literal interiors included) and single plain spaces only. -/
def cleanCanonical (l : List Char) : Bool :=
  headIs lbrace l && lastIs rbrace l && noFence l && noR6 l && noR7 l && noR8 l
    && wsCanonical l

/-!  ## JS values and JSON parsing

JS numbers are modelled as finite rationals: every value produced by
`JSON.parse` from a decimal literal is a finite number, and the clamping
and averaging done by the code are exact on rationals.  `NaN` and the
infinities are outside the embedding (they cannot be produced by the
parser, and `parseFloat` failures are modelled as `none`). -/

/-- A parsed JSON / JS value. -/
inductive JSValue where
  | null : JSValue
  | bool : Bool → JSValue
  | num : ℚ → JSValue
  | str : String → JSValue
  | arr : List JSValue → JSValue
  | obj : List (String × JSValue) → JSValue

/-- JSON whitespace accepted by `JSON.parse`. -/
def isJsonWs (c : Char) : Bool :=
  c = ' ' || c = '\t' || c = '\n' || c = '\r'

/-- Numeric value of a digit run. -/
def natOfDigits (l : List Char) : Nat :=
  l.foldl (fun a c => 10 * a + (c.toNat - 48)) 0

/-- Hex value of a digit. -/
def hexVal (c : Char) : Nat :=
  if '0' ≤ c ∧ c ≤ '9' then c.toNat - 48
  else if 'a' ≤ c ∧ c ≤ 'f' then c.toNat - 87
  else if 'A' ≤ c ∧ c ≤ 'F' then c.toNat - 55
  else 0

/-- JSON string body (opening quote already consumed): returns the
content characters and the remaining input. -/
def pStringChars : List Char → Option (List Char × List Char)
  | [] => none
  | '"' :: rest => some ([], rest)
  | '\\' :: 'u' :: h1 :: h2 :: h3 :: h4 :: rest =>
    (pStringChars rest).map (fun p =>
      (Char.ofNat (((hexVal h1 * 16 + hexVal h2) * 16 + hexVal h3) * 16 + hexVal h4) :: p.1, p.2))
  | '\\' :: e :: rest =>
    let c : Option Char :=
      if e = '"' then some '"'
      else if e = '\\' then some '\\'
      else if e = '/' then some '/'
      else if e = 'n' then some '\n'
      else if e = 't' then some '\t'
      else if e = 'r' then some '\r'
      else if e = 'b' then some (Char.ofNat 8)
      else if e = 'f' then some (Char.ofNat 12)
      else none
    match c with
    | some c => (pStringChars rest).map (fun p => (c :: p.1, p.2))
    | none => none
  | c :: rest => (pStringChars rest).map (fun p => (c :: p.1, p.2))

/-- Exponent part of a JSON number. -/
def pNumExp (m : ℚ) (l : List Char) : Option (ℚ × List Char) :=
  match l with
  | c :: t =>
    if c = 'e' ∨ c = 'E' then
      let st : Int × List Char :=
        match t with
        | '-' :: u => (-1, u)
        | '+' :: u => (1, u)
        | u => (1, u)
      let eds := st.2.takeWhile Char.isDigit
      if eds = [] then none
      else some (m * (10 : ℚ) ^ (st.1 * (natOfDigits eds : Int)), st.2.dropWhile Char.isDigit)
    else some (m, l)
  | [] => some (m, [])

/-- Unsigned JSON number. -/
def pNumPos (l : List Char) : Option (ℚ × List Char) :=
  match l with
  | c :: _ =>
    if c.isDigit then
      let ds := l.takeWhile Char.isDigit
      let l2 := l.dropWhile Char.isDigit
      if 1 < ds.length ∧ ds.head? = some '0' then none
      else
        match l2 with
        | '.' :: t =>
          let fds := t.takeWhile Char.isDigit
          if fds = [] then none
          else pNumExp ((natOfDigits ds : ℚ) + (natOfDigits fds : ℚ) / (10 : ℚ) ^ fds.length)
            (t.dropWhile Char.isDigit)
        | _ => pNumExp (natOfDigits ds : ℚ) l2
    else none
  | [] => none

/-- Signed JSON number. -/
def pNum (l : List Char) : Option (ℚ × List Char) :=
  match l with
  | '-' :: t => (pNumPos t).map (fun p => (-p.1, p.2))
  | t => pNumPos t

/-- Insert a key into an object, JS-style: a duplicate key keeps its
original position and takes the new value. -/
def objInsert : List (String × JSValue) → String → JSValue → List (String × JSValue)
  | [], k, v => [(k, v)]
  | (k0, v0) :: fs, k, v =>
    if k0 = k then (k0, v) :: fs else (k0, v0) :: objInsert fs k v

mutual

/-- Fueled strict JSON value. -/
def pVal : Nat → List Char → Option (JSValue × List Char)
  | 0, _ => none
  | fuel+1, l0 =>
    match l0.dropWhile isJsonWs with
    | [] => none
    | c :: rest =>
      if c = lbrace then
        match rest.dropWhile isJsonWs with
        | d :: r2 =>
          if d = rbrace then some (.obj [], r2)
          else (pMembers fuel (rest.dropWhile isJsonWs) []).map (fun p => (.obj p.1, p.2))
        | [] => none
      else if c = '[' then
        match rest.dropWhile isJsonWs with
        | d :: r2 =>
          if d = ']' then some (.arr [], r2)
          else (pElems fuel (rest.dropWhile isJsonWs) []).map (fun p => (.arr p.1, p.2))
        | [] => none
      else if c = '"' then
        (pStringChars rest).map (fun p => (.str (String.mk p.1), p.2))
      else if c = 't' then
        match rest with
        | 'r' :: 'u' :: 'e' :: r => some (.bool true, r)
        | _ => none
      else if c = 'f' then
        match rest with
        | 'a' :: 'l' :: 's' :: 'e' :: r => some (.bool false, r)
        | _ => none
      else if c = 'n' then
        match rest with
        | 'u' :: 'l' :: 'l' :: r => some (.null, r)
        | _ => none
      else
        (pNum (c :: rest)).map (fun p => (.num p.1, p.2))

/-- Fueled object members (input positioned at the first member). -/
def pMembers : Nat → List Char → List (String × JSValue) → Option (List (String × JSValue) × List Char)
  | 0, _, _ => none
  | fuel+1, l, acc =>
    match l.dropWhile isJsonWs with
    | c :: rest =>
      if c = '"' then
        match pStringChars rest with
        | none => none
        | some (k, r1) =>
          match r1.dropWhile isJsonWs with
          | ':' :: r2 =>
            match pVal fuel r2 with
            | none => none
            | some (v, r3) =>
              let acc2 := objInsert acc (String.mk k) v
              match r3.dropWhile isJsonWs with
              | d :: r4 =>
                if d = ',' then pMembers fuel r4 acc2
                else if d = rbrace then some (acc2, r4)
                else none
              | [] => none
          | _ => none
      else none
    | [] => none

/-- Fueled array elements (input positioned at the first element). -/
def pElems : Nat → List Char → List JSValue → Option (List JSValue × List Char)
  | 0, _, _ => none
  | fuel+1, l, acc =>
    match pVal fuel l with
    | none => none
    | some (v, r1) =>
      match r1.dropWhile isJsonWs with
      | d :: r2 =>
        if d = ',' then pElems fuel r2 (acc ++ [v])
        else if d = ']' then some (acc ++ [v], r2)
        else none
      | [] => none

end

/-- `JSON.parse`: strict parse; `none` models a thrown `SyntaxError`. -/
def jsonParse (s : String) : Option JSValue :=
  match pVal (s.length + 1) s.toList with
  | some (v, rest) => if rest.dropWhile isJsonWs = [] then some v else none
  | none => none

/-!  ## `utils.normalizeScore` and its JS coercions -/

/-- Decimal digits of a proper fraction `r / d` (`r < d`), exact whenever
the expansion terminates within the fuel; values reaching this code come
from decimal literals, whose expansions are finite. -/
def fracDigitsF : Nat → Nat → Nat → List Char
  | 0, _, _ => []
  | fuel+1, r, d =>
    if r = 0 then []
    else Char.ofNat (48 + r * 10 / d) :: fracDigitsF fuel (r * 10 % d) d

/-- Decimal rendering of a nonnegative rational. -/
def ratToStringNN (q : ℚ) : String :=
  let n := q.num.natAbs
  let d := q.den
  if n % d = 0 then toString (n / d)
  else toString (n / d) ++ "." ++ String.mk (fracDigitsF 40 (n % d) d)

/-- JS `String(x)` for a finite number (exponential notation for very
large or small magnitudes is not modelled; no claim depends on it). -/
def ratToString (q : ℚ) : String :=
  if q.num < 0 then "-" ++ ratToStringNN (-q) else ratToStringNN q

mutual

/-- JS `String(x)` / `ToString` coercion of a value. -/
def jsToString : JSValue → String
  | .null => "null"
  | .bool b => if b then "true" else "false"
  | .num q => ratToString q
  | .str s => s
  | .arr xs => jsArrString xs
  | .obj _ => "[object Object]"

/-- JS `Array.prototype.toString` = `join(',')`, rendering `null`
elements as the empty string. -/
def jsArrString : List JSValue → String
  | [] => ""
  | [x] => match x with | .null => "" | x => jsToString x
  | x :: xs =>
    (match x with | .null => "" | x => jsToString x) ++ "," ++ jsArrString xs

end

/-- JS `parseFloat`: longest numeric prefix after leading whitespace;
`none` models `NaN` (the non-finite `Infinity` result is likewise
outside the finite-number embedding and modelled as `none`). -/
def parseFloatJS (s : String) : Option ℚ :=
  let l := s.toList.dropWhile isJsWs
  let st : ℚ × List Char :=
    match l with
    | '-' :: t => (-1, t)
    | '+' :: t => (1, t)
    | t => (1, t)
  let ds1 := st.2.takeWhile Char.isDigit
  let l2 := st.2.dropWhile Char.isDigit
  let fr : List Char × List Char :=
    match l2 with
    | '.' :: t => (t.takeWhile Char.isDigit, t.dropWhile Char.isDigit)
    | t => ([], t)
  if ds1 = [] ∧ fr.1 = [] then none
  else
    let mant : ℚ := (natOfDigits ds1 : ℚ) + (natOfDigits fr.1 : ℚ) / (10 : ℚ) ^ fr.1.length
    let expVal : Int :=
      match fr.2 with
      | e :: t =>
        if e = 'e' ∨ e = 'E' then
          let est : Int × List Char :=
            match t with
            | '-' :: u => (-1, u)
            | '+' :: u => (1, u)
            | u => (1, u)
          let eds := est.2.takeWhile Char.isDigit
          if eds = [] then 0 else est.1 * (natOfDigits eds : Int)
        else 0
      | [] => 0
    some (st.1 * mant * (10 : ℚ) ^ expVal)

/-- `utils.normalizeScore`: a number is clamped into `[0, 100]`; any
other value is coerced with `parseFloat(score) || 0` (strings are parsed
directly, other values through their JS string coercion) and the result
clamped.  The `.str` case is listed separately so that it reduces
without unfolding `jsToString`; it agrees with `jsToString (.str s) = s`. -/
def normalizeScore (v : JSValue) : ℚ :=
  match v with
  | .num q => max 0 (min 100 q)
  | .str s => max 0 (min 100 ((parseFloatJS s).getD 0))
  | v => max 0 (min 100 ((parseFloatJS (jsToString v)).getD 0))

/-!  ## Per-document analysis normalization (`aiAnalyzer`) -/

/-- JS property read on an association list (keys are unique after
`JSON.parse`, so first match is the binding). -/
def lookupField : List (String × JSValue) → String → Option JSValue
  | [], _ => none
  | (k0, v0) :: fs, k => if k0 = k then some v0 else lookupField fs k

/-- JS property write: replace the value bound to a key in place. -/
def setKey : List (String × JSValue) → String → JSValue → List (String × JSValue)
  | [], _, _ => []
  | (k0, v0) :: fs, k, v =>
    if k0 = k then (k0, v) :: fs else (k0, v0) :: setKey fs k v

/-- `analysis.k` (`undefined` = `none`; property access on a non-object
yields `undefined` for these keys). -/
def getField (v : JSValue) (k : String) : Option JSValue :=
  match v with
  | .obj fs => lookupField fs k
  | _ => none

/-- `analysis.k1?.k2`. -/
def getPath2 (v : JSValue) (k1 k2 : String) : Option JSValue :=
  match getField v k1 with
  | some (.obj io) => lookupField io k2
  | _ => none

/-- One step `if (analysis.k !== undefined) analysis.k = normalizeScore(analysis.k)`. -/
def normTop (fs : List (String × JSValue)) (k : String) : List (String × JSValue) :=
  match lookupField fs k with
  | some v => setKey fs k (.num (normalizeScore v))
  | none => fs

/-- One step `if (analysis.outer?.inner !== undefined) analysis.outer.inner = normalizeScore(...)`. -/
def normNested (fs : List (String × JSValue)) (outer inner : String) :
    List (String × JSValue) :=
  match lookupField fs outer with
  | some (.obj io) =>
    match lookupField io inner with
    | some v => setKey fs outer (.obj (setKey io inner (.num (normalizeScore v))))
    | none => fs
  | _ => fs

/-- The score-normalization block of `aiAnalyzer.analyzeCVForJob`
(main.js lines 371–386).  A non-object parse result is returned
unchanged: every guard reads `undefined` and is skipped. -/
def normalizeCVAnalysis (v : JSValue) : JSValue :=
  match v with
  | .obj fs =>
    let f1 := normTop fs "overallMatchScore"
    let f2 := normNested f1 "careerStageAlignment" "score"
    let f3 := normNested f2 "skillsAnalysis" "matchPercentage"
    let f4 := normNested f3 "educationMatch" "degreeAlignment"
    let f5 := normTop f4 "applicationReadiness"
    .obj f5
  | v => v

/-- Stage names for the five sequential CV normalization statements
(used to reason about `normalizeCVAnalysis` step by step). -/
def cvStage1 (fs : List (String × JSValue)) : List (String × JSValue) :=
  normTop fs "overallMatchScore"

def cvStage2 (fs : List (String × JSValue)) : List (String × JSValue) :=
  normNested (cvStage1 fs) "careerStageAlignment" "score"

def cvStage3 (fs : List (String × JSValue)) : List (String × JSValue) :=
  normNested (cvStage2 fs) "skillsAnalysis" "matchPercentage"

def cvStage4 (fs : List (String × JSValue)) : List (String × JSValue) :=
  normNested (cvStage3 fs) "educationMatch" "degreeAlignment"

def cvStage5 (fs : List (String × JSValue)) : List (String × JSValue) :=
  normTop (cvStage4 fs) "applicationReadiness"

/-- The score-normalization block of `aiAnalyzer.analyzeCoverLetterForJob`
(main.js lines 474–493). -/
def normalizeCLAnalysis (v : JSValue) : JSValue :=
  match v with
  | .obj fs =>
    let f1 := normTop fs "overallEffectiveness"
    let f2 := normNested f1 "careerStageAppropriate" "score"
    let f3 := normNested f2 "contentQuality" "jobAlignment"
    let f4 := normNested f3 "contentQuality" "companyResearch"
    let f5 := normNested f4 "communicationEffectiveness" "clarity"
    let f6 := normNested f5 "communicationEffectiveness" "persuasiveness"
    let f7 := normNested f6 "communicationEffectiveness" "professionalTone"
    .obj f7
  | v => v

/-!  ## Validator (`utils.validateFile`) and configuration -/

/-- `config.allowedExtensions`. -/
def allowedExtensions : List String :=
  [".pdf", ".jpg", ".jpeg", ".png", ".doc", ".docx", ".txt"]

/-- `config.maxFileSize` (5 MiB). -/
def maxFileSize : Nat := 5 * 1024 * 1024

/-- JS `Math.round` (half rounds toward positive infinity). -/
def jsRound (q : ℚ) : Int := Int.floor (q + 1 / 2)

/-- JS `toLowerCase` restricted to ASCII letters (sufficient for the
extension comparison against the ASCII allow-list). -/
def jsToLower (c : Char) : Char :=
  match c with
  | 'A' => 'a' | 'B' => 'b' | 'C' => 'c' | 'D' => 'd' | 'E' => 'e' | 'F' => 'f'
  | 'G' => 'g' | 'H' => 'h' | 'I' => 'i' | 'J' => 'j' | 'K' => 'k' | 'L' => 'l'
  | 'M' => 'm' | 'N' => 'n' | 'O' => 'o' | 'P' => 'p' | 'Q' => 'q' | 'R' => 'r'
  | 'S' => 's' | 'T' => 't' | 'U' => 'u' | 'V' => 'v' | 'W' => 'w' | 'X' => 'x'
  | 'Y' => 'y' | 'Z' => 'z' | c => c

/-- Lowercase a string, character by character. -/
def strToLower (s : String) : String := String.mk (s.toList.map jsToLower)

/-- `fileName.toLowerCase().substring(fileName.lastIndexOf('.'))`:
JS `substring` clamps a negative start index to 0, so a name without a
dot yields the entire lowercased name. -/
def extOf (fileName : String) : String :=
  let l := fileName.toList
  String.mk ((l.map jsToLower).drop (jsLastIndexOf '.' l).toNat)

structure FileInfo where
  extension : String
  size : Nat
  deriving DecidableEq

/-- String membership (`Array.prototype.includes`). -/
def containsStr (s : String) : List String → Bool
  | [] => false
  | t :: ts => t = s || containsStr s ts

/-- `utils.validateFile` (main.js lines 74–92).  The byte size is
`Math.ceil(length * 3 / 4)`, exact on naturals as `(3n + 3) / 4`. -/
def validateFile (fileName fileData : String) : Except String FileInfo :=
  if fileName = "" ∨ fileData = "" then .error "File name and data are required"
  else
    let ext := extOf fileName
    if containsStr ext allowedExtensions = false then
      .error "Unsupported file type. Please upload PDF, DOC, DOCX, JPG, PNG, or TXT files."
    else
      let sizeBytes := (fileData.length * 3 + 3) / 4
      if maxFileSize < sizeBytes then
        .error ("File size too large (" ++ toString (jsRound ((sizeBytes : ℚ) / 1048576))
          ++ "MB). Please upload files smaller than 5MB.")
      else .ok ⟨ext, sizeBytes⟩

/-!  ## Career stage contexts (`utils.getCareerStageContext`) -/

structure CareerStageContext where
  description : String
  focus : String
  expectations : String
  priorities : List String
  deriving DecidableEq

def pathfinderContext : CareerStageContext :=
  { description := "Early career professional finding their career direction"
    focus := "Learning, exploration, and skill building"
    expectations := "Entry to junior level positions with growth potential"
    priorities := ["Skill development", "Career exploration", "Mentorship opportunities"] }

def trailblazerContext : CareerStageContext :=
  { description := "Established professional seeking continued growth"
    focus := "Career advancement and expertise development"
    expectations := "Mid to senior level positions with leadership opportunities"
    priorities := ["Career progression", "Leadership development", "Expertise building"] }

def horizonChangerContext : CareerStageContext :=
  { description := "Experienced professional pivoting to new career direction"
    focus := "Career transition and skill transfer"
    expectations := "Roles that leverage transferable skills while enabling transition"
    priorities := ["Skill transferability", "Industry transition", "Strategic career moves"] }

/-- `utils.getCareerStageContext`: table lookup with Pathfinder as the
fallback for a missing or unrecognized stage. -/
def getCareerStageContext (careerStage : Option String) : CareerStageContext :=
  match careerStage with
  | some "Pathfinder" => pathfinderContext
  | some "Trailblazer" => trailblazerContext
  | some "Horizon Changer" => horizonChangerContext
  | _ => pathfinderContext

/-!  ## Data model and collaborator oracles

Record-store, object-store and model-service behaviour is supplied by
oracle functions; every external call the handler makes is recorded as
an `Event`, so "no external call was made" is `events = []`. -/

structure Talent where
  fullname : Option String
  careerStage : Option String
  skills : Option (List String)
  degrees : Option (List String)
  deriving DecidableEq

structure Job where
  name : Option String
  seniorityLevel : Option String
  skills : Option (List String)
  Degrees : Option (List String)
  responsibilities : Option String
  employer : Option String
  industry : Option String
  deriving DecidableEq

structure Employer where
  name : Option String
  deriving DecidableEq

/-- The destructured request body; a missing field is `none`. -/
structure RequestData where
  talentId : Option String
  jobId : Option String
  cvData : Option String
  cvFileName : Option String
  coverLetterData : Option String
  coverLetterFileName : Option String
  deriving DecidableEq

/-- JS truthiness of an optional string (only `undefined` and the empty
string are falsy here). -/
def truthyS : Option String → Bool
  | none => false
  | some s => s ≠ ""

inductive DocKind where
  | cv : DocKind
  | coverLetter : DocKind
  deriving DecidableEq

/-- External calls observable during a request. -/
inductive Event where
  | talentLookup : Event
  | jobLookup : Event
  | employerLookup : String → Event
  | upload : DocKind → Event
  | modelExtract : DocKind → Event
  | modelAnalyze : DocKind → Event
  | deleteFile : String → Event
  deriving DecidableEq

/-- Behaviour of the collaborators and of the request environment.  The
deletion oracle is passed separately to `handler`: the `finally` sweep
is the only consumer of it. -/
structure Oracles where
  hasGeminiKey : Bool
  body : Option RequestData
  talentLookup : String → Except String (List Talent)
  jobLookup : String → Except String Job
  employerLookup : String → Except String Employer
  upload : DocKind → Except String String
  extractResp : DocKind → Except String String
  analyzeResp : DocKind → Except String String

/-- `dataFetcher.getTalent`: query by external id, first match, wrapped
error messages. -/
def getTalentM (O : Oracles) (talentId : String) : Except String Talent :=
  match O.talentLookup talentId with
  | .error e => .error ("Failed to fetch talent information: " ++ e)
  | .ok [] => .error "Failed to fetch talent information: Talent profile not found"
  | .ok (t :: _) => .ok t

/-- `dataFetcher.getJob`. -/
def getJobM (O : Oracles) (jobId : String) : Except String Job :=
  match O.jobLookup jobId with
  | .error e => .error ("Failed to fetch job information: " ++ e)
  | .ok j => .ok j

/-- `dataFetcher.getEmployer`: `null` immediately on a falsy id (no
lookup event); a lookup failure is swallowed into `null`. -/
def getEmployerM (O : Oracles) (employerId : Option String) : Option Employer × List Event :=
  if truthyS employerId = false then (none, [])
  else
    match O.employerLookup (employerId.getD "") with
    | .ok e => (some e, [Event.employerLookup (employerId.getD "")])
    | .error _ => (none, [Event.employerLookup (employerId.getD "")])

def kindLower : DocKind → String
  | .cv => "cv"
  | .coverLetter => "cover letter"

/-- `fileUploader.uploadTemporaryFile`: failure is swallowed into `null`
(no id recorded). -/
def uploadTemporaryFileM (O : Oracles) (k : DocKind) : Option String :=
  match O.upload k with
  | .ok fid => some fid
  | .error _ => none

/-- JS `trim` on strings. -/
def trimS (s : String) : String := String.mk (trimL s.toList)

/-- `documentProcessor.extractText`: fails when the model returns empty
text or fewer than 50 characters after trimming; all failures are
rewrapped with the document kind. -/
def extractTextM (O : Oracles) (k : DocKind) : Except String String :=
  match O.extractResp k with
  | .error e => .error ("Failed to extract text from " ++ kindLower k ++ ": " ++ e)
  | .ok t =>
    if t = "" ∨ (trimS t).length < 50 then
      .error ("Failed to extract text from " ++ kindLower k ++ ": Insufficient text extracted from "
        ++ kindLower k)
    else .ok t

/-- `aiAnalyzer.analyzeCVForJob` / `analyzeCoverLetterForJob` after the
model call: JSON recovery, strict parse, then score normalization; every
failure is rewrapped with the per-document prefix.  A `null` parse
result makes the property reads throw in JS, hence an error here. -/
def analyzeDocM (O : Oracles) (k : DocKind) : Except String JSValue :=
  let pre := match k with
    | .cv => "Failed to analyze CV: "
    | .coverLetter => "Failed to analyze cover letter: "
  match O.analyzeResp k with
  | .error e => .error (pre ++ e)
  | .ok txt =>
    match extractAndCleanJSON txt with
    | none => .error (pre ++ "Failed to clean JSON: No valid JSON object found in response")
    | some cleaned =>
      match jsonParse cleaned with
      | none => .error (pre ++ "JSON parse error")
      | some JSValue.null => .error (pre ++ "TypeError: cannot read properties of null")
      | some a =>
        .ok (match k with
          | .cv => normalizeCVAnalysis a
          | .coverLetter => normalizeCLAnalysis a)

/-- One per-document processing block of the handler: best-effort temp
upload (id recorded only on success) → extraction → analysis.  The
events and any recorded id are returned on failure as well. -/
def processDoc (O : Oracles) (k : DocKind) : Except String JSValue × List Event × List String :=
  let fid := uploadTemporaryFileM O k
  let ids := match fid with
    | some i => [i]
    | none => []
  match extractTextM O k with
  | .error e => (.error e, [Event.upload k, Event.modelExtract k], ids)
  | .ok _ =>
    match analyzeDocM O k with
    | .error e => (.error e, [Event.upload k, Event.modelExtract k, Event.modelAnalyze k], ids)
    | .ok a => (.ok a, [Event.upload k, Event.modelExtract k, Event.modelAnalyze k], ids)

/-- The two guarded per-document blocks (main.js lines 639–707): CV
first; a CV failure aborts before the cover letter starts. -/
def runDocPhase (O : Oracles) (rd : RequestData) :
    Except String (Option JSValue × Option JSValue) × List Event × List String :=
  if truthyS rd.cvData && truthyS rd.cvFileName then
    match processDoc O .cv with
    | (.error msg, evs, ids) => (.error ("CV processing failed: " ++ msg), evs, ids)
    | (.ok cvA, evs, ids) =>
      if truthyS rd.coverLetterData && truthyS rd.coverLetterFileName then
        match processDoc O .coverLetter with
        | (.error msg, evs2, ids2) =>
          (.error ("Cover letter processing failed: " ++ msg), evs ++ evs2, ids ++ ids2)
        | (.ok clA, evs2, ids2) => (.ok (some cvA, some clA), evs ++ evs2, ids ++ ids2)
      else (.ok (some cvA, none), evs, ids)
  else if truthyS rd.coverLetterData && truthyS rd.coverLetterFileName then
    match processDoc O .coverLetter with
    | (.error msg, evs, ids) => (.error ("Cover letter processing failed: " ++ msg), evs, ids)
    | (.ok clA, evs, ids) => (.ok (none, some clA), evs, ids)
  else (.ok (none, none), [], [])

/-!  ## Combined insights and the response -/

structure CombinedInsights where
  overallApplicationScore : Int
  readinessScore : Int
  readinessAlignment : String
  recommendation : String
  consistencyScore : Nat
  strengthsAlignment : String
  improvementAreas : String
  strategicAdvice : List String
  deriving DecidableEq

/-- `x || 0` on an analysis score: after normalization a present score
is numeric; a missing score (`undefined`) becomes 0, and a present 0 is
falsy but `0 || 0` is again 0. -/
def numOr0 : Option JSValue → ℚ
  | some (.num q) => q
  | _ => 0

/-- `x || 50` on a career-stage sub-score: a missing sub-score becomes
50, and a present sub-score of 0 is falsy, so it also becomes 50. -/
def numOr50 : Option JSValue → ℚ
  | some (.num q) => if q = 0 then 50 else q
  | _ => 50

/-- The `combinedInsights` block (main.js lines 711–739). -/
def mkCombinedInsights (cvA clA : JSValue) (careerStage : Option String) : CombinedInsights :=
  let ctx := getCareerStageContext careerStage
  let cvScore := numOr0 (getField cvA "overallMatchScore")
  let clScore := numOr0 (getField clA "overallEffectiveness")
  let cvCareer := numOr50 (getPath2 cvA "careerStageAlignment" "score")
  let clCareer := numOr50 (getPath2 clA "careerStageAppropriate" "score")
  { overallApplicationScore := jsRound ((cvScore + clScore) / 2)
    readinessScore := jsRound ((cvCareer + clCareer) / 2)
    readinessAlignment := "Strong alignment for "
      ++ (match careerStage with
          | some s => s
          | none => "undefined") ++ " career stage"
    recommendation :=
      if 70 ≤ cvScore ∧ 70 ≤ clScore then "Application ready - good fit for career stage"
      else "Consider improvements before submission"
    consistencyScore := 75
    strengthsAlignment := "Documents consistently highlight relevant experience"
    improvementAreas := "Ensure skill emphasis matches between documents"
    strategicAdvice :=
      ["Focus on " ++ strToLower ctx.focus ++ " in your application approach",
       "Align both documents to emphasize your career stage strengths",
       "Highlight growth potential and learning mindset"] }

/-- The JSON payload fields the handler returns that the verified
properties observe (failure payloads leave the success-only fields
`none`). -/
structure Response where
  success : Bool
  statusCode : Nat
  error : Option String
  cv : Option JSValue
  coverLetter : Option JSValue
  combined : Option CombinedInsights
  stage : Option String
  company : Option String
  position : Option String
  level : Option String
  industry : Option String
  docsCv : Option Bool
  docsCl : Option Bool

/-- A failure response `res.json({success: false, error, statusCode})`. -/
def mkErr (code : Nat) (msg : String) : Response :=
  { success := false, statusCode := code, error := some msg, cv := none, coverLetter := none
    combined := none, stage := none, company := none, position := none, level := none
    industry := none, docsCv := none, docsCl := none }

/-- `x || 'placeholder'` on an optional string field. -/
def orNotAvailable (x : Option String) (d : String) : String :=
  match x with
  | some s => if s = "" then d else s
  | none => d

/-- The success response (main.js lines 745–773). -/
def mkSuccess (talent : Talent) (job : Job) (employer : Option Employer)
    (cvA clA : Option JSValue) : Response :=
  let combined := match cvA, clA with
    | some c, some l => some (mkCombinedInsights c l talent.careerStage)
    | _, _ => none
  { success := true, statusCode := 200, error := none
    cv := cvA, coverLetter := clA, combined := combined
    stage := some (orNotAvailable talent.careerStage "Not specified")
    company := some (orNotAvailable (employer.bind Employer.name) "Company information not available")
    position := some (orNotAvailable job.name "Not specified")
    level := some (orNotAvailable job.seniorityLevel "Not specified")
    industry := some (orNotAvailable job.industry "Not specified")
    docsCv := some cvA.isSome, docsCl := some clA.isSome }

/-!  ## The request handler (`module.exports`) -/

/-- The file-validation block (main.js lines 589–603): each supplied
document (data and name both truthy) is validated; the first thrown
error becomes the 400 message. -/
def validateDocs (rd : RequestData) : Except String Unit :=
  match (if truthyS rd.cvData && truthyS rd.cvFileName then
          (validateFile (rd.cvFileName.getD "") (rd.cvData.getD "")).map (fun _ => ())
         else .ok ()) with
  | .error e => .error e
  | .ok _ =>
    if truthyS rd.coverLetterData && truthyS rd.coverLetterFileName then
      (validateFile (rd.coverLetterFileName.getD "") (rd.coverLetterData.getD "")).map (fun _ => ())
    else .ok ()

/-- The `try` part of the handler: the response, the external calls
made, and the temp-file ids recorded for cleanup.  The talent and job
lookups run concurrently (both events always occur together); when both
fail, the model reports the talent error (the rejection that settles
first is not deterministic in JS, and no verified property depends on
which message wins). -/
def handlerBody (O : Oracles) : Response × List Event × List String :=
  if O.hasGeminiKey = false then (mkErr 500 "Server configuration error", [], [])
  else
    match O.body with
    | none => (mkErr 400 "Invalid JSON input", [], [])
    | some rd =>
      if truthyS rd.talentId = false || truthyS rd.jobId = false then
        (mkErr 400 "Missing required parameters: talentId and jobId are required", [], [])
      else if truthyS rd.cvData = false && truthyS rd.coverLetterData = false then
        (mkErr 400 "At least one document (CV or cover letter) must be provided", [], [])
      else
        match validateDocs rd with
        | .error msg => (mkErr 400 msg, [], [])
        | .ok _ =>
          let fetchEvents := [Event.talentLookup, Event.jobLookup]
          match getTalentM O (rd.talentId.getD "") with
          | .error msg => (mkErr 404 msg, fetchEvents, [])
          | .ok talent =>
            match getJobM O (rd.jobId.getD "") with
            | .error msg => (mkErr 404 msg, fetchEvents, [])
            | .ok job =>
              let emp := if truthyS job.employer then getEmployerM O job.employer else (none, [])
              let evs0 := fetchEvents ++ emp.2
              match runDocPhase O rd with
              | (.error msg, evs, ids) => (mkErr 500 msg, evs0 ++ evs, ids)
              | (.ok docs, evs, ids) =>
                (mkSuccess talent job emp.1 docs.1 docs.2, evs0 ++ evs, ids)

structure HandlerResult where
  resp : Response
  events : List Event
  uploaded : List String
  deletions : List (String × Bool)

/-- The whole handler: the `try/catch` body followed by the `finally`
cleanup sweep, which attempts a deletion for every recorded id; each
deletion is individually try/caught (its outcome is recorded, never
propagated) and the sweep cannot alter the response already chosen. -/
def handler (O : Oracles) (del : String → Except String Unit) : HandlerResult :=
  let b := handlerBody O
  { resp := b.1
    events := b.2.1 ++ b.2.2.map Event.deleteFile
    uploaded := b.2.2
    deletions := b.2.2.map (fun fid =>
      (fid, match del fid with
        | .ok _ => true
        | .error _ => false)) }

/-!  ## Concrete request environments used by closed statements -/

def demoTalent : Talent := ⟨some "Jo", some "Pathfinder", none, none⟩

def demoJob : Job := ⟨some "Dev", none, none, none, none, none, none⟩

/-- A body with `cvData` supplied but `cvFileName` absent. -/
def rdMissingName : RequestData := ⟨some "t", some "j", some "AAAA", none, none, none⟩

def oraclesMissingName : Oracles :=
  ⟨true, some rdMissingName, fun _ => .ok [demoTalent], fun _ => .ok demoJob,
    fun _ => .error "absent", fun _ => .ok "tmp1", fun _ => .error "no call",
    fun _ => .error "no call"⟩

def delNoop : String → Except String Unit := fun _ => .ok ()

/-- A supplied document fails validation: extension outside the
allow-list, or decoded size above the 5 MiB ceiling. -/
def isBadFile (fileName fileData : String) : Prop :=
  containsStr (extOf fileName) allowedExtensions = false
    ∨ maxFileSize < (fileData.length * 3 + 3) / 4

instance (a b : String) : Decidable (isBadFile a b) := by
  unfold isBadFile
  infer_instance

/-- A body whose CV has a disallowed extension. -/
def rdBadExt : RequestData := ⟨some "t", some "j", some "AAAA", some "cv.exe", none, none⟩

def oraclesBadExt : Oracles :=
  ⟨true, some rdBadExt, fun _ => .ok [demoTalent], fun _ => .ok demoJob,
    fun _ => .error "absent", fun _ => .ok "tmp1", fun _ => .error "no call",
    fun _ => .error "no call"⟩

/-- Sixty characters: clears the 50-character extraction threshold. -/
def longText : String := "aaaaaaaaaaaaaaaaaaaaaaaaaaaaaaaaaaaaaaaaaaaaaaaaaaaaaaaaaaaa"

/-- Well-formed model answers for the two analysis prompts. -/
def analyzeRespSuccess (k : DocKind) : Except String String :=
  match k with
  | .cv => .ok "\x7b\"overallMatchScore\": 80\x7d"
  | .coverLetter => .ok "\x7b\"overallEffectiveness\": 60\x7d"

/-- A body supplying both documents. -/
def rdBoth : RequestData :=
  ⟨some "t", some "j", some "AAAA", some "cv.pdf", some "BBBB", some "cl.pdf"⟩

/-- Oracles driving the handler to a success response; the job has no
employer reference. -/
def oraclesSuccess : Oracles :=
  ⟨true, some rdBoth, fun _ => .ok [demoTalent], fun _ => .ok demoJob,
    fun _ => .error "absent", fun _ => .ok "tmp1", fun _ => .ok longText,
    analyzeRespSuccess⟩

/-!  ## Lemmas about object updates -/

theorem lookup_setKey_ne {fs : List (String × JSValue)} {k k' : String} {v : JSValue}
    (h : k' ≠ k) : lookupField (setKey fs k v) k' = lookupField fs k' := by
  induction fs with
  | nil => rfl
  | cons p fs ih =>
    obtain ⟨k0, v0⟩ := p
    by_cases hk : k0 = k
    · subst hk
      simp [setKey, lookupField, Ne.symm h]
    · simp [setKey, hk, lookupField]
      by_cases hk' : k0 = k'
      · simp [hk']
      · simp [hk', ih]

theorem lookup_setKey_self {fs : List (String × JSValue)} {k : String} {v v0 : JSValue}
    (h : lookupField fs k = some v0) : lookupField (setKey fs k v) k = some v := by
  induction fs with
  | nil => simp [lookupField] at h
  | cons p fs ih =>
    obtain ⟨k1, v1⟩ := p
    by_cases hk : k1 = k
    · simp [setKey, hk, lookupField]
    · simp [lookupField, hk] at h
      simp [setKey, hk, lookupField, ih h]

theorem normTop_lookup_ne {fs : List (String × JSValue)} {k k' : String} (h : k' ≠ k) :
    lookupField (normTop fs k) k' = lookupField fs k' := by
  unfold normTop
  cases hv : lookupField fs k with
  | none => rfl
  | some v => exact lookup_setKey_ne h

theorem normTop_of_none {fs : List (String × JSValue)} {k : String}
    (h : lookupField fs k = none) : normTop fs k = fs := by
  unfold normTop
  rw [h]

theorem normTop_lookup_some {fs : List (String × JSValue)} {k : String} {v : JSValue}
    (h : lookupField fs k = some v) :
    lookupField (normTop fs k) k = some (.num (normalizeScore v)) := by
  unfold normTop
  rw [h]
  exact lookup_setKey_self h

theorem normNested_lookup_ne {fs : List (String × JSValue)} {outer inner k' : String}
    (h : k' ≠ outer) : lookupField (normNested fs outer inner) k' = lookupField fs k' := by
  rcases hv : lookupField fs outer with _ | v
  · simp [normNested, hv]
  · cases v with
    | obj io =>
      rcases hi : lookupField io inner with _ | w
      · simp [normNested, hv, hi]
      · simp [normNested, hv, hi, lookup_setKey_ne h]
    | null => simp [normNested, hv]
    | bool b => simp [normNested, hv]
    | num q => simp [normNested, hv]
    | str s => simp [normNested, hv]
    | arr xs => simp [normNested, hv]

theorem normNested_of_outer_none {fs : List (String × JSValue)} {outer inner : String}
    (h : lookupField fs outer = none) : normNested fs outer inner = fs := by
  simp [normNested, h]

theorem normNested_of_inner_none {fs : List (String × JSValue)} {outer inner : String}
    {io : List (String × JSValue)} (ho : lookupField fs outer = some (.obj io))
    (hi : lookupField io inner = none) : normNested fs outer inner = fs := by
  simp [normNested, ho, hi]

/-- Evaluation rule for `Math.round`. -/
theorem jsRound_eq (q : ℚ) (n : ℤ) (h1 : (n : ℚ) ≤ q + 1 / 2) (h2 : q + 1 / 2 < n + 1) :
    jsRound q = n := by
  rw [jsRound]
  exact Int.floor_eq_iff.mpr ⟨h1, h2⟩

/-- A list all of whose members differ from `c` does not contain `c`. -/
theorem containsC_false_of_all_ne {l : List Char} {c : Char}
    (h : l.all (fun d => d ≠ c) = true) : containsC c l = false := by
  induction l with
  | nil => rfl
  | cons d ds ih =>
    simp only [List.all_cons, Bool.and_eq_true, decide_eq_true_eq] at h
    simp [containsC, h.1, ih h.2]

/-- A truthy optional string is nonempty. -/
theorem getD_ne_of_truthy {x : Option String} (h : truthyS x = true) : x.getD "" ≠ "" := by
  cases x with
  | none => simp [truthyS] at h
  | some s =>
    simp [truthyS] at h
    simpa using h

/-- `validateFile` rejects every bad supplied file. -/
theorem validateFile_error_of_bad {name data : String} (hn : name ≠ "") (hd : data ≠ "")
    (hbad : isBadFile name data) : ∃ m, validateFile name data = .error m := by
  have hne : ¬(name = "" ∨ data = "") := by
    rintro (h | h) <;> contradiction
  rcases hbad with hext | hsize
  · refine ⟨"Unsupported file type. Please upload PDF, DOC, DOCX, JPG, PNG, or TXT files.", ?_⟩
    unfold validateFile
    rw [if_neg hne]
    show (if containsStr (extOf name) allowedExtensions = false then _ else _) = _
    rw [if_pos hext]
  · by_cases hext : containsStr (extOf name) allowedExtensions = false
    · refine ⟨"Unsupported file type. Please upload PDF, DOC, DOCX, JPG, PNG, or TXT files.", ?_⟩
      unfold validateFile
      rw [if_neg hne]
      show (if containsStr (extOf name) allowedExtensions = false then _ else _) = _
      rw [if_pos hext]
    · refine ⟨"File size too large (" ++ toString (jsRound (((data.length * 3 + 3) / 4 : Nat) / 1048576))
        ++ "MB). Please upload files smaller than 5MB.", ?_⟩
      unfold validateFile
      rw [if_neg hne]
      show (if containsStr (extOf name) allowedExtensions = false then _ else _) = _
      rw [if_neg hext]
      show (if maxFileSize < (data.length * 3 + 3) / 4 then _ else _) = _
      rw [if_pos hsize]

/-- The validation block throws whenever some supplied document is bad. -/
theorem validateDocs_error {rd : RequestData}
    (hbad : (truthyS rd.cvData = true ∧ truthyS rd.cvFileName = true
        ∧ isBadFile (rd.cvFileName.getD "") (rd.cvData.getD ""))
      ∨ (truthyS rd.coverLetterData = true ∧ truthyS rd.coverLetterFileName = true
        ∧ isBadFile (rd.coverLetterFileName.getD "") (rd.coverLetterData.getD ""))) :
    ∃ m, validateDocs rd = .error m := by
  rcases hbad with ⟨hcd, hcn, hb⟩ | ⟨hld, hln, hb⟩
  · obtain ⟨m, hm⟩ := validateFile_error_of_bad (getD_ne_of_truthy hcn) (getD_ne_of_truthy hcd) hb
    refine ⟨m, ?_⟩
    simp [validateDocs, hcd, hcn, hm, Except.map]
  · obtain ⟨m, hm⟩ := validateFile_error_of_bad (getD_ne_of_truthy hln) (getD_ne_of_truthy hld) hb
    by_cases hc1 : (truthyS rd.cvData && truthyS rd.cvFileName) = true
    · rcases hv : validateFile (rd.cvFileName.getD "") (rd.cvData.getD "") with e | fi
      · exact ⟨e, by simp [validateDocs, hc1, hv, Except.map]⟩
      · exact ⟨m, by simp [validateDocs, hc1, hv, hld, hln, hm, Except.map]⟩
    · exact ⟨m, by simp [validateDocs, hc1, hld, hln, hm, Except.map]⟩

/-- The events of one per-document block, by case. -/
theorem processDoc_events (O : Oracles) (k : DocKind) :
    (processDoc O k).2.1 = [Event.upload k, Event.modelExtract k]
      ∨ (processDoc O k).2.1 = [Event.upload k, Event.modelExtract k, Event.modelAnalyze k] := by
  rcases hE : extractTextM O k with e | t
  · exact Or.inl (by simp [processDoc, hE])
  · rcases hA : analyzeDocM O k with e | a
    · exact Or.inr (by simp [processDoc, hE, hA])
    · exact Or.inr (by simp [processDoc, hE, hA])

/-- The document phase never performs an employer lookup. -/
theorem runDocPhase_no_employer (O : Oracles) (rd : RequestData) (x : String) :
    Event.employerLookup x ∉ (runDocPhase O rd).2.1 := by
  have hcv := processDoc_events O .cv
  have hcl := processDoc_events O .coverLetter
  rcases hpc : processDoc O DocKind.cv with ⟨rc, evc, idc⟩
  rcases hpl : processDoc O DocKind.coverLetter with ⟨rl, evl, idl⟩
  rw [hpc] at hcv
  rw [hpl] at hcl
  simp only at hcv hcl
  unfold runDocPhase
  rw [hpc, hpl]
  rcases rc with ec | ac <;> rcases rl with el | al <;>
    rcases hcv with hcv | hcv <;> rcases hcl with hcl | hcl <;> subst hcv <;> subst hcl <;>
    by_cases h1 : (truthyS rd.cvData && truthyS rd.cvFileName) = true <;>
    by_cases h2 : (truthyS rd.coverLetterData && truthyS rd.coverLetterFileName) = true <;>
    simp [h1, h2]

/-- Membership helper: the assembled event list of a request that made
no employer lookup contains none. -/
theorem employer_not_mem_assembled {x : String} {evs : List Event} {ids : List String}
    (h : Event.employerLookup x ∉ evs) :
    Event.employerLookup x
      ∉ (([Event.talentLookup, Event.jobLookup] ++ ([] : List Event)) ++ evs)
        ++ ids.map Event.deleteFile := by
  intro hx
  rcases List.mem_append.mp hx with hx1 | hx2
  · rcases List.mem_append.mp hx1 with hx3 | hx4
    · simp at hx3
    · exact h hx4
  · obtain ⟨y, _, hy⟩ := List.mem_map.mp hx2
    simp at hy

/-!  ### Identity of the recovery passes on canonical text -/

theorem r1F_id : ∀ (fuel : Nat) (l : List Char), noFence l = true → r1F fuel l = l := by
  intro fuel
  induction fuel with
  | zero =>
    intro l h
    rfl
  | succ n ih =>
    intro l h
    cases l with
    | nil => rfl
    | cons c cs =>
      simp only [noFence, Bool.and_eq_true, Bool.not_eq_true'] at h
      obtain ⟨hf, hrest⟩ := h
      simp only [r1F]
      by_cases hc : c = bq
      · rw [if_pos hc]
        split

        · split
          · exfalso
            rename_i hbb
            simp [fenceAt, hc, hbb.1, hbb.2] at hf
          · rw [ih _ hrest]
        · rw [ih _ hrest]
      · rw [if_neg hc, ih _ hrest]

theorem r2F_id : ∀ (fuel : Nat) (l : List Char), noFence l = true → r2F fuel l = l := by
  intro fuel
  induction fuel with
  | zero =>
    intro l h
    rfl
  | succ n ih =>
    intro l h
    cases l with
    | nil => rfl
    | cons c cs =>
      simp only [noFence, Bool.and_eq_true, Bool.not_eq_true'] at h
      obtain ⟨hf, hrest⟩ := h
      simp only [r2F]
      by_cases hc : c = bq
      · rw [if_pos hc]
        split
        · split
          · exfalso
            rename_i hbb
            simp [fenceAt, hc, hbb.1, hbb.2] at hf
          · rw [ih _ hrest]
        · rw [ih _ hrest]
      · rw [if_neg hc, ih _ hrest]

theorem r6F_id : ∀ (fuel : Nat) (l : List Char), noR6 l = true → r6F fuel l = l := by
  intro fuel
  induction fuel with
  | zero =>
    intro l h
    rfl
  | succ n ih =>
    intro l h
    cases l with
    | nil => rfl
    | cons c cs =>
      simp only [noR6, Bool.and_eq_true, Bool.not_eq_true'] at h
      obtain ⟨hf, hrest⟩ := h
      simp only [r6F]
      by_cases hc : c = ','
      · subst hc
        rw [if_pos rfl]
        simp only [r6matchAt] at hf
        split
        · rename_i b rest heq
          split
          · exfalso
            rename_i hb
            rw [heq] at hf
            rcases hb with hb | hb <;> simp [hb] at hf
          · rw [ih _ hrest]
        · rw [ih _ hrest]
      · rw [if_neg hc, ih _ hrest]

theorem r7F_id : ∀ (fuel : Nat) (l : List Char), noR7 l = true → r7F fuel l = l := by
  intro fuel
  induction fuel with
  | zero =>
    intro l h
    rfl
  | succ n ih =>
    intro l h
    cases l with
    | nil => rfl
    | cons c cs =>
      simp only [noR7, Bool.and_eq_true, Bool.not_eq_true'] at h
      obtain ⟨hf, hrest⟩ := h
      simp only [r7matchAt] at hf
      simp only [r7F]
      by_cases hc : c = lbrace ∨ c = ','
      · rw [if_pos hc]
        have hcb : (decide (c = lbrace) || decide (c = ',')) = true := by
          rcases hc with hc | hc <;> simp [hc]
        rw [hcb, Bool.true_and] at hf
        split
        · exfalso
          rename_i w ws rest heq1 heq2
          rw [heq1, heq2] at hf
          simp at hf
        all_goals rw [ih _ hrest]
      · rw [if_neg hc, ih _ hrest]

theorem r8F_id : ∀ (fuel : Nat) (l : List Char), noR8 l = true → r8F fuel l = l := by
  intro fuel
  induction fuel with
  | zero =>
    intro l h
    rfl
  | succ n ih =>
    intro l h
    cases l with
    | nil => rfl
    | cons c cs =>
      simp only [noR8, Bool.and_eq_true, Bool.not_eq_true'] at h
      obtain ⟨hf, hrest⟩ := h
      simp only [r8F]
      by_cases hc : c = ':'
      · subst hc
        rw [if_pos rfl]
        simp only [r8matchAt] at hf
        split
        · rename_i q rest2 heq
          rw [heq] at hf
          simp only at hf
          split
          · rename_i hq
            split
            · exfalso
              rename_i x rest4 heq2
              rw [heq2] at hf
              simp [hq] at hf
            · rw [ih _ hrest]
          · rw [ih _ hrest]
        · rw [ih _ hrest]
      · rw [if_neg hc, ih _ hrest]

theorem collapseWsF_id : ∀ (fuel : Nat) (l : List Char), wsCanonical l = true →
    collapseWsF fuel l = l := by
  intro fuel
  induction fuel with
  | zero =>
    intro l h
    rfl
  | succ n ih =>
    intro l h
    cases l with
    | nil => rfl
    | cons c cs =>
      simp only [wsCanonical, Bool.and_eq_true] at h
      obtain ⟨hc, hrest⟩ := h
      simp only [collapseWsF]
      by_cases hw : isJsWs c = true
      · rw [if_pos hw]
        rw [hw] at hc
        simp only [Bool.not_true, Bool.false_or, Bool.and_eq_true, decide_eq_true_eq] at hc
        have hdrop : cs.dropWhile isJsWs = cs := by
          cases cs with
          | nil => rfl
          | cons d ds =>
            have hd : isJsWs d = false := by
              have := hc.2
              simp only [Bool.not_eq_true'] at this
              exact this
            simp [List.dropWhile_cons, hd]
        rw [hdrop, ih _ hrest, hc.1]
      · rw [if_neg hw, ih _ hrest]

theorem map_newline_id : ∀ (l : List Char), wsCanonical l = true →
    l.map (fun c => if c = '\n' then ' ' else c) = l := by
  intro l
  induction l with
  | nil =>
    intro h
    rfl
  | cons c cs ih =>
    intro h
    simp only [wsCanonical, Bool.and_eq_true] at h
    obtain ⟨hc, hrest⟩ := h
    by_cases hceq : c = '\n'
    · exfalso
      subst hceq
      rw [show isJsWs '\n' = true from by decide] at hc
      simp only [Bool.not_true, Bool.false_or, Bool.and_eq_true, decide_eq_true_eq] at hc
      exact absurd hc.1 (by decide)
    · simp only [List.map_cons, if_neg hceq]
      rw [ih hrest]

theorem trimL_id {l : List Char} (h1 : headIs lbrace l = true) (h2 : lastIs rbrace l = true) :
    trimL l = l := by
  obtain ⟨cs, rfl⟩ : ∃ cs, l = lbrace :: cs := by
    cases l with
    | nil => simp [headIs] at h1
    | cons c cs =>
      have hc : c = lbrace := by simpa [headIs] using h1
      exact ⟨cs, by rw [hc]⟩
  unfold trimL
  have hd1 : (lbrace :: cs).dropWhile isJsWs = lbrace :: cs := by
    simp [List.dropWhile_cons, show isJsWs lbrace = false from by decide]
  rw [hd1]
  obtain ⟨ds, hds⟩ : ∃ ds, (lbrace :: cs).reverse = rbrace :: ds := by
    rcases hr : (lbrace :: cs).reverse with _ | ⟨d, ds⟩
    · rw [lastIs, hr] at h2
      simp [headIs] at h2
    · rw [lastIs, hr] at h2
      have hd : d = rbrace := by simpa [headIs] using h2
      exact ⟨ds, by rw [hd]⟩
  rw [hds]
  rw [show (rbrace :: ds).dropWhile isJsWs = rbrace :: ds from by
    simp [List.dropWhile_cons, show isJsWs rbrace = false from by decide]]
  rw [← hds, List.reverse_reverse]

theorem containsC_append (c : Char) (a b : List Char) :
    containsC c (a ++ b) = (containsC c a || containsC c b) := by
  induction a with
  | nil => simp [containsC]
  | cons d ds ih => simp [containsC, ih, Bool.or_assoc]

theorem containsC_reverse (c : Char) (l : List Char) :
    containsC c l.reverse = containsC c l := by
  induction l with
  | nil => rfl
  | cons d ds ih =>
    simp only [List.reverse_cons, containsC_append, ih, containsC]
    cases containsC c ds <;> simp

theorem exists_cons_of_headIs {c : Char} {l : List Char} (h : headIs c l = true) :
    ∃ cs, l = c :: cs := by
  cases l with
  | nil => simp [headIs] at h
  | cons d ds =>
    have hd : d = c := by simpa [headIs] using h
    exact ⟨ds, by rw [hd]⟩

/-!  ## Claim theorems -/

/-- C1: however the request terminates, the cleanup sweep attempts a
deletion for exactly the recorded temp-file identifiers, and the outcome
of the deletion oracle (including failures) neither removes any id from
the attempted set nor changes the response. -/
theorem claim1_cleanup_sweep (O : Oracles) (del : String → Except String Unit) :
    ((handler O del).deletions.map Prod.fst = (handler O del).uploaded
      ∧ (handler O del).uploaded = (handlerBody O).2.2)
    ∧ ∀ del2 : String → Except String Unit,
        (handler O del2).resp = (handler O del).resp
          ∧ (handler O del2).deletions.map Prod.fst = (handler O del).deletions.map Prod.fst := by
  constructor
  · constructor
    · simp only [handler]
      rw [List.map_map]
      exact List.map_id _
    · rfl
  · intro del2
    constructor
    · rfl
    · simp only [handler]
      rw [List.map_map, List.map_map]
      exact (List.map_id _).trans (List.map_id _).symm

/-- C2 (code bug): a request whose body supplies `cvData` without
`cvFileName` (and no cover letter) is not rejected with 400; the handler
silently skips the document and returns a success response with nothing
analyzed. -/
theorem claim2_missing_filename_succeeds :
    (handler oraclesMissingName delNoop).resp.success = true
      ∧ (handler oraclesMissingName delNoop).resp.statusCode = 200
      ∧ (handler oraclesMissingName delNoop).resp.docsCv = some false
      ∧ (handler oraclesMissingName delNoop).resp.cv = none := ⟨rfl, rfl, rfl, rfl⟩

/-- C3 counterexample: a present non-numeric value is not left
untouched — normalization replaces the unparseable string "abc" by the
clamped coercion 0. -/
theorem claim3_counterexample :
    normalizeCVAnalysis (.obj [("overallMatchScore", .str "abc")])
      = .obj [("overallMatchScore", .num 0)] := rfl

/-- C3 amended: a missing numeric field stays missing (no default is
inserted at any of the five declared CV fields), but a present
non-numeric value is **not** left untouched: a string is coerced through
`parseFloat` (unparseable strings becoming 0) and clamped into
`[0, 100]`. -/
theorem claim3_amended (fs : List (String × JSValue)) :
    (lookupField fs "overallMatchScore" = none →
      getField (normalizeCVAnalysis (.obj fs)) "overallMatchScore" = none)
    ∧ (lookupField fs "applicationReadiness" = none →
      getField (normalizeCVAnalysis (.obj fs)) "applicationReadiness" = none)
    ∧ (lookupField fs "careerStageAlignment" = none →
      getField (normalizeCVAnalysis (.obj fs)) "careerStageAlignment" = none)
    ∧ (lookupField fs "skillsAnalysis" = none →
      getField (normalizeCVAnalysis (.obj fs)) "skillsAnalysis" = none)
    ∧ (lookupField fs "educationMatch" = none →
      getField (normalizeCVAnalysis (.obj fs)) "educationMatch" = none)
    ∧ (∀ io, lookupField fs "careerStageAlignment" = some (.obj io) →
        lookupField io "score" = none →
        getPath2 (normalizeCVAnalysis (.obj fs)) "careerStageAlignment" "score" = none)
    ∧ (∀ io, lookupField fs "skillsAnalysis" = some (.obj io) →
        lookupField io "matchPercentage" = none →
        getPath2 (normalizeCVAnalysis (.obj fs)) "skillsAnalysis" "matchPercentage" = none)
    ∧ (∀ io, lookupField fs "educationMatch" = some (.obj io) →
        lookupField io "degreeAlignment" = none →
        getPath2 (normalizeCVAnalysis (.obj fs)) "educationMatch" "degreeAlignment" = none)
    ∧ (∀ s, lookupField fs "overallMatchScore" = some (.str s) →
        getField (normalizeCVAnalysis (.obj fs)) "overallMatchScore"
          = some (.num (max 0 (min 100 ((parseFloatJS s).getD 0))))) := by
  have e : normalizeCVAnalysis (.obj fs) = .obj (cvStage5 fs) := rfl
  refine ⟨?_, ?_, ?_, ?_, ?_, ?_, ?_, ?_, ?_⟩
  · intro h
    rw [e]
    show lookupField (cvStage5 fs) "overallMatchScore" = none
    unfold cvStage5 cvStage4 cvStage3 cvStage2
    rw [normTop_lookup_ne (by decide : ("overallMatchScore" : String) ≠ "applicationReadiness"),
      normNested_lookup_ne (by decide : ("overallMatchScore" : String) ≠ "educationMatch"),
      normNested_lookup_ne (by decide : ("overallMatchScore" : String) ≠ "skillsAnalysis"),
      normNested_lookup_ne (by decide : ("overallMatchScore" : String) ≠ "careerStageAlignment")]
    unfold cvStage1
    rw [normTop_of_none h]
    exact h
  · intro h
    rw [e]
    show lookupField (cvStage5 fs) "applicationReadiness" = none
    have hg : lookupField (cvStage4 fs) "applicationReadiness" = none := by
      unfold cvStage4 cvStage3 cvStage2 cvStage1
      rw [normNested_lookup_ne (by decide : ("applicationReadiness" : String) ≠ "educationMatch"),
        normNested_lookup_ne (by decide : ("applicationReadiness" : String) ≠ "skillsAnalysis"),
        normNested_lookup_ne (by decide : ("applicationReadiness" : String) ≠ "careerStageAlignment"),
        normTop_lookup_ne (by decide : ("applicationReadiness" : String) ≠ "overallMatchScore")]
      exact h
    unfold cvStage5
    rw [normTop_of_none hg]
    exact hg
  · intro h
    rw [e]
    show lookupField (cvStage5 fs) "careerStageAlignment" = none
    have h1 : lookupField (cvStage1 fs) "careerStageAlignment" = none := by
      unfold cvStage1
      rw [normTop_lookup_ne (by decide : ("careerStageAlignment" : String) ≠ "overallMatchScore")]
      exact h
    have h2 : cvStage2 fs = cvStage1 fs := by
      unfold cvStage2
      exact normNested_of_outer_none h1
    unfold cvStage5 cvStage4 cvStage3
    rw [normTop_lookup_ne (by decide : ("careerStageAlignment" : String) ≠ "applicationReadiness"),
      normNested_lookup_ne (by decide : ("careerStageAlignment" : String) ≠ "educationMatch"),
      normNested_lookup_ne (by decide : ("careerStageAlignment" : String) ≠ "skillsAnalysis"), h2]
    exact h1
  · intro h
    rw [e]
    show lookupField (cvStage5 fs) "skillsAnalysis" = none
    have h2 : lookupField (cvStage2 fs) "skillsAnalysis" = none := by
      unfold cvStage2 cvStage1
      rw [normNested_lookup_ne (by decide : ("skillsAnalysis" : String) ≠ "careerStageAlignment"),
        normTop_lookup_ne (by decide : ("skillsAnalysis" : String) ≠ "overallMatchScore")]
      exact h
    have h3 : cvStage3 fs = cvStage2 fs := by
      unfold cvStage3
      exact normNested_of_outer_none h2
    unfold cvStage5 cvStage4
    rw [normTop_lookup_ne (by decide : ("skillsAnalysis" : String) ≠ "applicationReadiness"),
      normNested_lookup_ne (by decide : ("skillsAnalysis" : String) ≠ "educationMatch"), h3]
    exact h2
  · intro h
    rw [e]
    show lookupField (cvStage5 fs) "educationMatch" = none
    have h3 : lookupField (cvStage3 fs) "educationMatch" = none := by
      unfold cvStage3 cvStage2 cvStage1
      rw [normNested_lookup_ne (by decide : ("educationMatch" : String) ≠ "skillsAnalysis"),
        normNested_lookup_ne (by decide : ("educationMatch" : String) ≠ "careerStageAlignment"),
        normTop_lookup_ne (by decide : ("educationMatch" : String) ≠ "overallMatchScore")]
      exact h
    have h4 : cvStage4 fs = cvStage3 fs := by
      unfold cvStage4
      exact normNested_of_outer_none h3
    unfold cvStage5
    rw [normTop_lookup_ne (by decide : ("educationMatch" : String) ≠ "applicationReadiness"), h4]
    exact h3
  · intro io ho hi
    rw [e]
    have ha : lookupField (cvStage1 fs) "careerStageAlignment" = some (.obj io) := by
      unfold cvStage1
      rw [normTop_lookup_ne (by decide : ("careerStageAlignment" : String) ≠ "overallMatchScore")]
      exact ho
    have h2 : cvStage2 fs = cvStage1 fs := by
      unfold cvStage2
      exact normNested_of_inner_none ha hi
    have hfin : lookupField (cvStage5 fs) "careerStageAlignment" = some (.obj io) := by
      unfold cvStage5 cvStage4 cvStage3
      rw [normTop_lookup_ne (by decide : ("careerStageAlignment" : String) ≠ "applicationReadiness"),
        normNested_lookup_ne (by decide : ("careerStageAlignment" : String) ≠ "educationMatch"),
        normNested_lookup_ne (by decide : ("careerStageAlignment" : String) ≠ "skillsAnalysis"), h2]
      exact ha
    show getPath2 (.obj (cvStage5 fs)) "careerStageAlignment" "score" = none
    simp [getPath2, getField, hfin, hi]
  · intro io ho hi
    rw [e]
    have ha : lookupField (cvStage2 fs) "skillsAnalysis" = some (.obj io) := by
      unfold cvStage2 cvStage1
      rw [normNested_lookup_ne (by decide : ("skillsAnalysis" : String) ≠ "careerStageAlignment"),
        normTop_lookup_ne (by decide : ("skillsAnalysis" : String) ≠ "overallMatchScore")]
      exact ho
    have h3 : cvStage3 fs = cvStage2 fs := by
      unfold cvStage3
      exact normNested_of_inner_none ha hi
    have hfin : lookupField (cvStage5 fs) "skillsAnalysis" = some (.obj io) := by
      unfold cvStage5 cvStage4
      rw [normTop_lookup_ne (by decide : ("skillsAnalysis" : String) ≠ "applicationReadiness"),
        normNested_lookup_ne (by decide : ("skillsAnalysis" : String) ≠ "educationMatch"), h3]
      exact ha
    show getPath2 (.obj (cvStage5 fs)) "skillsAnalysis" "matchPercentage" = none
    simp [getPath2, getField, hfin, hi]
  · intro io ho hi
    rw [e]
    have ha : lookupField (cvStage3 fs) "educationMatch" = some (.obj io) := by
      unfold cvStage3 cvStage2 cvStage1
      rw [normNested_lookup_ne (by decide : ("educationMatch" : String) ≠ "skillsAnalysis"),
        normNested_lookup_ne (by decide : ("educationMatch" : String) ≠ "careerStageAlignment"),
        normTop_lookup_ne (by decide : ("educationMatch" : String) ≠ "overallMatchScore")]
      exact ho
    have h4 : cvStage4 fs = cvStage3 fs := by
      unfold cvStage4
      exact normNested_of_inner_none ha hi
    have hfin : lookupField (cvStage5 fs) "educationMatch" = some (.obj io) := by
      unfold cvStage5
      rw [normTop_lookup_ne (by decide : ("educationMatch" : String) ≠ "applicationReadiness"), h4]
      exact ha
    show getPath2 (.obj (cvStage5 fs)) "educationMatch" "degreeAlignment" = none
    simp [getPath2, getField, hfin, hi]
  · intro s h
    rw [e]
    show lookupField (cvStage5 fs) "overallMatchScore"
      = some (.num (max 0 (min 100 ((parseFloatJS s).getD 0))))
    unfold cvStage5 cvStage4 cvStage3 cvStage2
    rw [normTop_lookup_ne (by decide : ("overallMatchScore" : String) ≠ "applicationReadiness"),
      normNested_lookup_ne (by decide : ("overallMatchScore" : String) ≠ "educationMatch"),
      normNested_lookup_ne (by decide : ("overallMatchScore" : String) ≠ "skillsAnalysis"),
      normNested_lookup_ne (by decide : ("overallMatchScore" : String) ≠ "careerStageAlignment")]
    unfold cvStage1
    exact normTop_lookup_some h

/-- C3 amended witness: missing fields stay missing at a concrete
object, and the string "abc" is coerced to a clamped 0. -/
theorem claim3_amended_witness :
    getField (normalizeCVAnalysis (.obj [("careerStageAlignment", JSValue.obj [])]))
        "overallMatchScore" = none
      ∧ getPath2 (normalizeCVAnalysis (.obj [("careerStageAlignment", JSValue.obj [])]))
        "careerStageAlignment" "score" = none
      ∧ getField (normalizeCVAnalysis (.obj [("overallMatchScore", JSValue.str "abc")]))
        "overallMatchScore" = some (.num (max 0 (min 100 ((parseFloatJS "abc").getD 0)))) :=
  ⟨(claim3_amended [("careerStageAlignment", JSValue.obj [])]).1 rfl,
   (claim3_amended [("careerStageAlignment", JSValue.obj [])]).2.2.2.2.2.1 [] rfl rfl,
   (claim3_amended [("overallMatchScore", JSValue.str "abc")]).2.2.2.2.2.2.2.2 "abc" rfl⟩

/-- C4 counterexample: with a present CV career-stage sub-score of 0 and
a cover-letter sub-score of 100, the combined readiness score is 75 (the
0 is falsy and replaced by 50), while the claimed formula demands
`round((0 + 100) / 2) = 50`. -/
theorem claim4_counterexample :
    (mkCombinedInsights (.obj [("careerStageAlignment", .obj [("score", .num 0)])])
        (.obj [("careerStageAppropriate", .obj [("score", .num 100)])])
        (some "Pathfinder")).readinessScore = 75
      ∧ jsRound (((0 : ℚ) + 100) / 2) = 50
      ∧ (75 : Int) ≠ 50 := by
  refine ⟨?_, ?_, by decide⟩
  · have h : (mkCombinedInsights (.obj [("careerStageAlignment", .obj [("score", .num 0)])])
        (.obj [("careerStageAppropriate", .obj [("score", .num 100)])])
        (some "Pathfinder")).readinessScore = jsRound ((50 + 100) / 2) := rfl
    rw [h]
    exact jsRound_eq _ 75 (by norm_num) (by norm_num)
  · exact jsRound_eq _ 50 (by norm_num) (by norm_num)

/-- C4 amended: the combined readiness score is the rounded mean of the
two career-stage sub-scores where a sub-score is replaced by 50 exactly
when it is missing **or falsy**: a present sub-score of 0 is also
averaged as 50, not as 0. -/
theorem claim4_amended (cvA clA : JSValue) (stage : Option String) :
    (∀ q1 q2 : ℚ,
        getPath2 cvA "careerStageAlignment" "score" = some (.num q1) →
        getPath2 clA "careerStageAppropriate" "score" = some (.num q2) →
        (mkCombinedInsights cvA clA stage).readinessScore
          = jsRound (((if q1 = 0 then 50 else q1) + (if q2 = 0 then 50 else q2)) / 2))
    ∧ (getPath2 cvA "careerStageAlignment" "score" = none →
        getPath2 clA "careerStageAppropriate" "score" = none →
        (mkCombinedInsights cvA clA stage).readinessScore = 50) := by
  constructor
  · intro q1 q2 h1 h2
    simp [mkCombinedInsights, numOr50, h1, h2]
  · intro h1 h2
    simp [mkCombinedInsights, numOr50, h1, h2]
    exact jsRound_eq _ 50 (by norm_num) (by norm_num)

/-- C4 amended witness at sub-scores 80 and 0. -/
theorem claim4_amended_witness :
    (mkCombinedInsights (.obj [("careerStageAlignment", .obj [("score", .num 80)])])
        (.obj [("careerStageAppropriate", .obj [("score", .num 0)])]) none).readinessScore
      = jsRound (((if (80 : ℚ) = 0 then 50 else 80) + (if (0 : ℚ) = 0 then 50 else 0)) / 2) :=
  (claim4_amended _ _ none).1 80 0 rfl rfl

/-- C6: `normalizeScore` clamps every finite numeric input into
`[0, 100]`: negatives map to 0, values above 100 map to 100, and values
already in range are returned unchanged. -/
theorem claim6_normalize_range (q : ℚ) :
    (0 ≤ normalizeScore (.num q) ∧ normalizeScore (.num q) ≤ 100)
    ∧ (q < 0 → normalizeScore (.num q) = 0)
    ∧ (100 < q → normalizeScore (.num q) = 100)
    ∧ (0 ≤ q → q ≤ 100 → normalizeScore (.num q) = q) := by
  have e : normalizeScore (.num q) = max 0 (min 100 q) := rfl
  rw [e]
  refine ⟨⟨le_max_left _ _, max_le (by norm_num) (min_le_left _ _)⟩, ?_, ?_, ?_⟩
  · intro h
    rw [min_eq_right (h.le.trans (by norm_num)), max_eq_left h.le]
  · intro h
    rw [min_eq_left h.le]
    norm_num
  · intro h0 h100
    rw [min_eq_right h100, max_eq_right h0]

/-- C6 witness at the inputs −5, 101 and 42. -/
theorem claim6_normalize_range_witness :
    normalizeScore (.num (-5)) = 0 ∧ normalizeScore (.num 101) = 100
      ∧ normalizeScore (.num 42) = 42 :=
  ⟨(claim6_normalize_range (-5)).2.1 (by norm_num),
   (claim6_normalize_range 101).2.2.1 (by norm_num),
   (claim6_normalize_range 42).2.2.2 (by norm_num) (by norm_num)⟩

/-- C5: when some supplied document has a disallowed extension or an
oversized payload, the handler answers 400 and performs no external call
at all (no record lookup, no model invocation, no storage operation). -/
theorem claim5_fail_fast (O : Oracles) (del : String → Except String Unit) (rd : RequestData)
    (hkey : O.hasGeminiKey = true) (hbody : O.body = some rd)
    (hbad : (truthyS rd.cvData = true ∧ truthyS rd.cvFileName = true
        ∧ isBadFile (rd.cvFileName.getD "") (rd.cvData.getD ""))
      ∨ (truthyS rd.coverLetterData = true ∧ truthyS rd.coverLetterFileName = true
        ∧ isBadFile (rd.coverLetterFileName.getD "") (rd.coverLetterData.getD ""))) :
    (handler O del).resp.statusCode = 400 ∧ (handler O del).events = [] := by
  have hb : ∃ m, handlerBody O = (mkErr 400 m, [], []) := by
    by_cases hparams : truthyS rd.talentId = false ∨ truthyS rd.jobId = false
    · exact ⟨"Missing required parameters: talentId and jobId are required",
        by simp [handlerBody, hkey, hbody, hparams]⟩
    · have hdocs : ¬(truthyS rd.cvData = false ∧ truthyS rd.coverLetterData = false) := by
        rcases hbad with ⟨h1, _, _⟩ | ⟨h1, _, _⟩ <;> simp [h1]
      obtain ⟨m, hm⟩ := validateDocs_error hbad
      exact ⟨m, by simp [handlerBody, hkey, hbody, hparams, hdocs, hm]⟩
  obtain ⟨m, hm⟩ := hb
  constructor
  · show (handlerBody O).1.statusCode = 400
    rw [hm]
    rfl
  · show (handlerBody O).2.1 ++ ((handlerBody O).2.2).map Event.deleteFile = []
    rw [hm]
    rfl

/-- C5 witness: a CV named `cv.exe` is rejected with 400 and zero
external calls. -/
theorem claim5_fail_fast_witness :
    (handler oraclesBadExt delNoop).resp.statusCode = 400
      ∧ (handler oraclesBadExt delNoop).events = [] :=
  claim5_fail_fast oraclesBadExt delNoop rdBadExt rfl rfl
    (Or.inl ⟨by decide, by decide, by decide⟩)

set_option maxHeartbeats 2000000 in
/-- C7: recovery of the fenced, bare-keyed, single-quoted,
trailing-comma model output yields clean JSON that parses to
`score = 101`, `name = "x"`, and normalization clamps 101 to 100. -/
theorem claim7_recovery_example :
    extractAndCleanJSON "```json\n\x7bscore: 101, name: 'x',\x7d\n```"
        = some "\x7b\"score\": 101, \"name\": \"x\"\x7d"
      ∧ jsonParse "\x7b\"score\": 101, \"name\": \"x\"\x7d"
        = some (.obj [("score", .num 101), ("name", .str "x")])
      ∧ normalizeScore (.num 101) = 100 := ⟨rfl, rfl, rfl⟩

/-- C8 counterexample: the recovery output for the shown input is clean,
double-quoted JSON with no trailing commas (it parses strictly), yet
re-running recovery on it removes the comma inside the string literal
and returns a different string. -/
theorem claim8_counterexample :
    extractAndCleanJSON "\x7b\"a\": \",, \x7d\"\x7d" = some "\x7b\"a\": \", \x7d\"\x7d"
      ∧ jsonParse "\x7b\"a\": \", \x7d\"\x7d" = some (.obj [("a", .str ", \x7d")])
      ∧ extractAndCleanJSON "\x7b\"a\": \", \x7d\"\x7d" = some "\x7b\"a\": \" \x7d\"\x7d"
      ∧ ("\x7b\"a\": \" \x7d\"\x7d" : String) ≠ "\x7b\"a\": \", \x7d\"\x7d" :=
  ⟨rfl, rfl, rfl, by decide⟩

/-- C8 amended: recovery is idempotent on canonical strings — texts that
are brace-delimited end to end, fence-free, single-plain-spaced, and
contain no occurrence of any rewrite trigger (trailing comma before a
closing bracket, bare key after `{` or `,`, single-quoted value after
`:`), whether inside or outside string literals.  The original claim
fails because a recovery output can be clean double-quoted JSON and yet
contain a trigger inside a string literal. -/
theorem claim8_amended (s : String) (h : cleanCanonical s.toList = true) :
    extractAndCleanJSON s = some s := by
  simp only [cleanCanonical, Bool.and_eq_true] at h
  obtain ⟨⟨⟨⟨⟨⟨hHead, hLast⟩, hFence⟩, h6⟩, h7⟩, h8⟩, hWs⟩ := h
  obtain ⟨cs, hcs⟩ := exists_cons_of_headIs hHead
  obtain ⟨ds, hds⟩ := exists_cons_of_headIs (show headIs rbrace s.toList.reverse = true from hLast)
  have hlen2 : 2 ≤ s.toList.length := by
    rcases cs with _ | ⟨d, ds2⟩
    · exfalso
      rw [hcs] at hds
      simp at hds
      exact absurd hds.1.symm (by decide)
    · rw [hcs]
      simp
  have hidx : jsIndexOf lbrace s.toList = 0 := by
    unfold jsIndexOf
    rw [hcs]
    rw [show containsC lbrace (lbrace :: cs) = true from by simp [containsC]]
    simp [idxOfC]
  have hlast : jsLastIndexOf rbrace s.toList = (s.toList.length : Int) - 1 := by
    unfold jsLastIndexOf
    have hcont : containsC rbrace s.toList = true := by
      rw [← containsC_reverse, hds]
      simp [containsC]
    rw [hcont]
    rw [show idxOfC rbrace s.toList.reverse = 0 from by rw [hds]; simp [idxOfC]]
    simp
  have hcond : ¬(jsIndexOf lbrace s.toList = -1 ∨ jsLastIndexOf rbrace s.toList = -1
      ∨ jsIndexOf lbrace s.toList ≥ jsLastIndexOf rbrace s.toList) := by
    rw [hidx, hlast]
    omega
  have hcore : ((s.toList.drop (jsIndexOf lbrace s.toList).toNat).take
      ((jsLastIndexOf rbrace s.toList).toNat + 1 - (jsIndexOf lbrace s.toList).toNat))
      = s.toList := by
    rw [hidx, hlast]
    have h1 : ((s.toList.length : Int) - 1).toNat = s.toList.length - 1 := by omega
    have h2 : (0 : Int).toNat = 0 := rfl
    rw [h1, h2]
    have h3 : s.toList.length - 1 + 1 - 0 = s.toList.length := by omega
    rw [h3]
    simp
  simp only [extractAndCleanJSON, extractAndCleanJSONL]
  rw [r1F_id _ _ hFence, r2F_id _ _ hFence, trimL_id hHead hLast, if_neg hcond, hcore,
    r6F_id _ _ h6, r7F_id _ _ h7, r8F_id _ _ h8, map_newline_id _ hWs, collapseWsF_id _ _ hWs,
    trimL_id hHead hLast]
  rfl

/-- C8 amended witness at the canonical string `{"a": 1}`. -/
theorem claim8_amended_witness :
    extractAndCleanJSON "\x7b\"a\": 1\x7d" = some "\x7b\"a\": 1\x7d" :=
  claim8_amended "\x7b\"a\": 1\x7d" (by decide)

/-- `jsToLower` can only produce a dot from a dot. -/
theorem jsToLower_eq_dot {c : Char} (h : jsToLower c = '.') : c = '.' := by
  unfold jsToLower at h
  split at h <;> first | exact absurd h (by decide) | exact h

/-- String membership from `containsStr`. -/
theorem mem_of_containsStr {s : String} {ts : List String}
    (h : containsStr s ts = true) : s ∈ ts := by
  induction ts with
  | nil => simp [containsStr] at h
  | cons t ts ih =>
    simp only [containsStr, Bool.or_eq_true, decide_eq_true_eq] at h
    rcases h with h | h
    · rw [← h]
      exact List.mem_cons_self _ _
    · exact List.mem_cons_of_mem _ (ih h)

/-- C9: `getEmployer` returns null immediately on a missing id (no
lookup performed) and swallows a failed lookup into null; and a request
whose fetched job carries no employer reference performs no employer
lookup at all, and its successful response's `jobContext.company` is the
fixed placeholder string. -/
theorem claim9_employer_best_effort :
    (∀ (O : Oracles) (eid : Option String), truthyS eid = false → getEmployerM O eid = (none, []))
    ∧ (∀ (O : Oracles) (eid : Option String) (e : String), truthyS eid = true →
        O.employerLookup (eid.getD "") = .error e →
        getEmployerM O eid = (none, [Event.employerLookup (eid.getD "")]))
    ∧ (∀ (O : Oracles) (del : String → Except String Unit) (rd : RequestData),
        O.body = some rd →
        (∀ j, O.jobLookup (rd.jobId.getD "") = Except.ok j → truthyS j.employer = false) →
        (∀ x, Event.employerLookup x ∉ (handler O del).events)
          ∧ ((handler O del).resp.success = true →
              (handler O del).resp.company = some "Company information not available")) := by
  refine ⟨?_, ?_, ?_⟩
  · intro O eid h
    simp [getEmployerM, h]
  · intro O eid e ht hl
    simp [getEmployerM, ht, hl]
  · intro O del rd hbody hjob
    have hgoal : (∀ x, Event.employerLookup x ∉ (handlerBody O).2.1
          ++ ((handlerBody O).2.2).map Event.deleteFile)
        ∧ ((handlerBody O).1.success = true →
            (handlerBody O).1.company = some "Company information not available") := by
      by_cases hkey : O.hasGeminiKey = false
      · constructor
        · intro x
          simp [handlerBody, hkey, mkErr]
        · simp [handlerBody, hkey, mkErr]
      · by_cases hparams : truthyS rd.talentId = false ∨ truthyS rd.jobId = false
        · constructor
          · intro x
            simp [handlerBody, hkey, hbody, hparams, mkErr]
          · simp [handlerBody, hkey, hbody, hparams, mkErr]
        · by_cases hdocs : truthyS rd.cvData = false ∧ truthyS rd.coverLetterData = false
          · constructor
            · intro x
              simp [handlerBody, hkey, hbody, hparams, hdocs, mkErr]
            · simp [handlerBody, hkey, hbody, hparams, hdocs, mkErr]
          · rcases hvd : validateDocs rd with e | u
            · constructor
              · intro x
                simp [handlerBody, hkey, hbody, hparams, hdocs, hvd, mkErr]
              · simp [handlerBody, hkey, hbody, hparams, hdocs, hvd, mkErr]
            · rcases htt : getTalentM O (rd.talentId.getD "") with e | talent
              · constructor
                · intro x
                  simp [handlerBody, hkey, hbody, hparams, hdocs, hvd, htt, mkErr]
                · simp [handlerBody, hkey, hbody, hparams, hdocs, hvd, htt, mkErr]
              · rcases hjj : getJobM O (rd.jobId.getD "") with e | job
                · constructor
                  · intro x
                    simp [handlerBody, hkey, hbody, hparams, hdocs, hvd, htt, hjj, mkErr]
                  · simp [handlerBody, hkey, hbody, hparams, hdocs, hvd, htt, hjj, mkErr]
                · have hje : truthyS job.employer = false := by
                    rcases hl : O.jobLookup (rd.jobId.getD "") with e2 | j2
                    · simp [getJobM, hl] at hjj
                    · simp [getJobM, hl] at hjj
                      rw [← hjj]
                      exact hjob j2 hl
                  have hemp : (if truthyS job.employer = true then getEmployerM O job.employer
                      else (none, [])) = (none, []) := by
                    rw [if_neg (by simp [hje])]
                  rcases hdp : runDocPhase O rd with ⟨res, evs, ids⟩
                  have hevs : ∀ x, Event.employerLookup x ∉ evs := by
                    intro x
                    have := runDocPhase_no_employer O rd x
                    rw [hdp] at this
                    exact this
                  rcases res with msg | docs
                  · have hbeq : handlerBody O
                        = (mkErr 500 msg,
                            ([Event.talentLookup, Event.jobLookup] ++ ([] : List Event)) ++ evs,
                            ids) := by
                      simp [handlerBody, hkey, hbody, hparams, hdocs, hvd, htt, hjj, hemp, hdp]
                    constructor
                    · intro x
                      rw [hbeq]
                      exact employer_not_mem_assembled (hevs x)
                    · rw [hbeq]
                      simp [mkErr]
                  · have hbeq : handlerBody O
                        = (mkSuccess talent job none docs.1 docs.2,
                            ([Event.talentLookup, Event.jobLookup] ++ ([] : List Event)) ++ evs,
                            ids) := by
                      simp [handlerBody, hkey, hbody, hparams, hdocs, hvd, htt, hjj, hemp, hdp]
                    constructor
                    · intro x
                      rw [hbeq]
                      exact employer_not_mem_assembled (hevs x)
                    · rw [hbeq]
                      intro _
                      simp [mkSuccess, orNotAvailable]
    constructor
    · intro x
      exact hgoal.1 x
    · exact hgoal.2

/-- C9 witness: null on a falsy id; null on a failed lookup; and on a
full success run with an employer-less job, no employer-lookup event and
the placeholder company string. -/
theorem claim9_employer_best_effort_witness :
    getEmployerM oraclesMissingName none = (none, [])
      ∧ getEmployerM oraclesMissingName (some "e1") = (none, [Event.employerLookup "e1"])
      ∧ Event.employerLookup "e1" ∉ (handler oraclesSuccess delNoop).events
      ∧ (handler oraclesSuccess delNoop).resp.company
          = some "Company information not available" := by
  have hjob : ∀ j, oraclesSuccess.jobLookup (rdBoth.jobId.getD "") = Except.ok j →
      truthyS j.employer = false := by
    intro j h
    cases h
    rfl
  refine ⟨claim9_employer_best_effort.1 oraclesMissingName none rfl,
    claim9_employer_best_effort.2.1 oraclesMissingName (some "e1") "absent" (by decide) rfl,
    (claim9_employer_best_effort.2.2 oraclesSuccess delNoop rdBoth rfl hjob).1 "e1",
    (claim9_employer_best_effort.2.2 oraclesSuccess delNoop rdBoth rfl hjob).2 ?_⟩
  rfl

/-- C10 counterexample: with an empty payload the failure is the
missing-required-data error, not the unsupported-file-type error, so the
"regardless of the payload" claim fails. -/
theorem claim10_counterexample :
    validateFile "x" "" = .error "File name and data are required" := rfl

/-- C10 amended: for every nonempty file name with no dot and a nonempty
payload, `validateFile` fails with the unsupported-file-type error (the
computed extension is the whole lowercased name, which never matches the
dot-prefixed allow-list); and the bare extension ".pdf" passes the
extension check. -/
theorem claim10_amended :
    (∀ name data : String, name ≠ "" → data ≠ "" →
        name.toList.all (fun c => c ≠ '.') = true →
        validateFile name data
          = .error "Unsupported file type. Please upload PDF, DOC, DOCX, JPG, PNG, or TXT files.")
    ∧ validateFile ".pdf" "AAAA" = .ok ⟨".pdf", 3⟩ := by
  constructor
  · intro name data hn hd hall
    have hc : containsC '.' name.toList = false := containsC_false_of_all_ne hall
    have hidx : jsLastIndexOf '.' name.toList = -1 := by
      unfold jsLastIndexOf
      rw [hc]
      simp
    have hext : extOf name = String.mk (name.toList.map jsToLower) := by
      have hidx2 : jsLastIndexOf '.' name.data = -1 := hidx
      simp [extOf, hidx2]
    have hmemF : containsStr (extOf name) allowedExtensions = false := by
      rw [hext]
      cases hb : containsStr (String.mk (name.toList.map jsToLower)) allowedExtensions with
      | false => rfl
      | true =>
        exfalso
        have hmem := mem_of_containsStr hb
        have hall7 : ∀ s ∈ allowedExtensions, '.' ∈ s.data := by decide
        have hdot : '.' ∈ name.toList.map jsToLower := hall7 _ hmem
        obtain ⟨c, hcmem, hcl⟩ := List.mem_map.mp hdot
        have hceq := jsToLower_eq_dot hcl
        subst hceq
        have := List.all_eq_true.mp hall _ hcmem
        simp at this
    have hne : ¬(name = "" ∨ data = "") := by
      rintro (h | h) <;> contradiction
    unfold validateFile
    rw [if_neg hne]
    show (if containsStr (extOf name) allowedExtensions = false then _ else _) = _
    rw [hmemF]
    simp
  · rfl

/-- C10 amended witness at name "noext" and payload "xx". -/
theorem claim10_amended_witness :
    validateFile "noext" "xx"
      = .error "Unsupported file type. Please upload PDF, DOC, DOCX, JPG, PNG, or TXT files." :=
  claim10_amended.1 "noext" "xx" (by decide) (by decide) (by decide)

end JobAnalysis
